import Mathlib

/-!
Verification of the Paperly API gateway core (rate limiter, TTL cache,
metrics/fitness pipeline) against its specification.

The definitions below are a shallow embedding of the Python sources:
`middleware/rate_limit.py`, `services/cache_service.py`, and the
`logging_and_metrics_middleware` of `main.py`.  Python dicts are embedded
as association lists (first-occurrence lookup); on duplicate-free lists —
the only states reachable from the empty dict — the operations coincide
with Python dict semantics.  Real-valued timestamps and durations
(`time.time()` floats) are embedded as exact rationals; the limiter uses
`int(time.time())`, embedded as a natural number.
-/

section Dict

variable {K V : Type} [DecidableEq K]

/-- Lookup of the first binding of a key, Python `d[k]` / `k in d`. -/
def dlookup : List (K × V) → K → Option V
  | [], _ => none
  | e :: t, k => if k = e.1 then some e.2 else dlookup t k

/-- Python `d[k] = v`: replace the binding if the key is present,
otherwise append a new binding (dicts keep insertion order). -/
def dinsert : List (K × V) → K → V → List (K × V)
  | [], k, v => [(k, v)]
  | e :: t, k, v => if k = e.1 then (e.1, v) :: t else e :: dinsert t k v

/-- Python `del d[k]` on a duplicate-free list: drop the bindings of `k`. -/
def ddelete (l : List (K × V)) (k : K) : List (K × V) :=
  l.filter (fun e => ! decide (e.1 = k))

theorem dlookup_nil (k : K) : dlookup ([] : List (K × V)) k = none := rfl

theorem dlookup_dinsert_self (l : List (K × V)) (k : K) (v : V) :
    dlookup (dinsert l k v) k = some v := by
  induction l with
  | nil => simp [dinsert, dlookup]
  | cons e t ih =>
    by_cases h : k = e.1 <;> simp [dinsert, dlookup, h, ih]

theorem dlookup_dinsert_ne (l : List (K × V)) (k k2 : K) (v : V) (h : k2 ≠ k) :
    dlookup (dinsert l k v) k2 = dlookup l k2 := by
  induction l with
  | nil => simp [dinsert, dlookup, h]
  | cons e t ih =>
    by_cases h1 : k = e.1
    · subst h1
      simp [dinsert, dlookup, h]
    · by_cases h2 : k2 = e.1 <;> simp [dinsert, dlookup, h1, h2, ih]

theorem dinsert_dinsert_same (l : List (K × V)) (k : K) (v w : V) :
    dinsert (dinsert l k v) k w = dinsert l k w := by
  induction l with
  | nil => simp [dinsert]
  | cons e t ih =>
    by_cases h : k = e.1 <;> simp [dinsert, h, ih]

theorem mem_dinsert (l : List (K × V)) (k : K) (v : V) (e : K × V)
    (h : e ∈ dinsert l k v) : e ∈ l ∨ e = (k, v) := by
  induction l with
  | nil => simp [dinsert] at h; simp [h]
  | cons e0 t ih =>
    by_cases h0 : k = e0.1
    · subst h0
      simp [dinsert] at h
      rcases h with h | h
      · right; simp [h]
      · left; simp [h]
    · simp [dinsert, h0] at h
      rcases h with h | h
      · left; simp [h]
      · rcases ih h with h1 | h1
        · left; simp [h1]
        · right; exact h1

theorem dlookup_ddelete_self (l : List (K × V)) (k : K) :
    dlookup (ddelete l k) k = none := by
  induction l with
  | nil => simp [ddelete, dlookup]
  | cons e t ih =>
    by_cases h : e.1 = k
    · simpa [ddelete, List.filter, h] using ih
    · have h2 : ¬ (k = e.1) := fun hk => h hk.symm
      simpa [ddelete, List.filter, h, dlookup, h2] using ih

theorem dlookup_filter (l : List (K × V)) (p : K × V → Bool) (k : K)
    (h : ∀ v, p (k, v) = true) :
    dlookup (l.filter p) k = dlookup l k := by
  induction l with
  | nil => rfl
  | cons e t ih =>
    by_cases h1 : k = e.1
    · have hpe : p e = true := by
        have := h e.2
        rwa [show (k, e.2) = e by rw [h1]] at this
      simp [List.filter, hpe, dlookup, h1]
    · cases hp : p e <;> simp [List.filter, hp, dlookup, h1, ih]

theorem dlookup_ddelete_ne (l : List (K × V)) (k k2 : K) (h : k2 ≠ k) :
    dlookup (ddelete l k) k2 = dlookup l k2 :=
  dlookup_filter l _ k2 (fun v => by simp [h])

omit [DecidableEq K] in
/-- A filter that keeps every element of the list is the identity. -/
theorem filter_all_eq (l : List (K × V)) (p : K × V → Bool)
    (h : ∀ e ∈ l, p e = true) : l.filter p = l := by
  induction l with
  | nil => rfl
  | cons e t ih =>
    have he : p e = true := h e (by simp)
    have ht : List.filter p t = t := ih (fun x hx => h x (by simp [hx]))
    simp [List.filter, he, ht]

end Dict

/-- Python substring test `needle in hay` on character lists:
`seqStartsWith l n` is the unqualified prefix test. -/
def seqStartsWith : List Char → List Char → Bool
  | _, [] => true
  | [], _ :: _ => false
  | a :: as, b :: bs => a = b && seqStartsWith as bs

/-- Test `seqContains hay needle`: some drop of `hay` starts with `needle`. -/
def seqContains : List Char → List Char → Bool
  | [], n => n.isEmpty
  | a :: t, n => seqStartsWith (a :: t) n || seqContains t n

/-- Python `needle in hay` for strings. -/
def strContains (hay needle : String) : Bool :=
  seqContains hay.data needle.data

section Cache

/-- State of `DistributedCacheService` (`services/cache_service.py`):
`cache` is `self.cache`, `ttlCache` is `self.ttl_cache` (absolute expiry
timestamps).  Values are opaque (`Any` in Python). -/
structure CacheState (α : Type) where
  cache : List (String × α)
  ttlCache : List (String × ℚ)

/-- The freshly constructed service: both dicts empty. -/
def emptyCache {α : Type} : CacheState α := ⟨[], []⟩

/-- Method `DistributedCacheService.get`: returns the stored value if present;
if a TTL is recorded and strictly exceeded by the current time, deletes
the entry from both dicts and returns `none`.  `now` stands for the
`time.time()` call. -/
def cget {α : Type} (s : CacheState α) (now : ℚ) (k : String) :
    CacheState α × Option α :=
  match dlookup s.cache k with
  | some v =>
    match dlookup s.ttlCache k with
    | some e =>
      if now > e then (⟨ddelete s.cache k, ddelete s.ttlCache k⟩, none)
      else (s, some v)
    | none => (s, some v)
  | none => (s, none)

/-- Method `DistributedCacheService.set`: stores the value and the absolute
expiry `time.time() + ttl`. -/
def cset {α : Type} (s : CacheState α) (now : ℚ) (k : String) (v : α)
    (ttl : ℚ) : CacheState α :=
  ⟨dinsert s.cache k v, dinsert s.ttlCache k (now + ttl)⟩

/-- Method `DistributedCacheService.delete`: removes the key from each dict in
which it is present. -/
def cdelete {α : Type} (s : CacheState α) (k : String) : CacheState α :=
  ⟨ddelete s.cache k, ddelete s.ttlCache k⟩

/-- The stats snapshot returned by `get_stats`. -/
structure CacheStats where
  totalKeys : Nat
  hitRate : ℚ
  memoryUsage : String
  deriving DecidableEq

/-- Method `DistributedCacheService.get_stats`: entry count of `self.cache` plus
mocked constants (the float `0.85` is the rational `17/20`). -/
def cstats {α : Type} (s : CacheState α) : CacheStats :=
  ⟨s.cache.length, 17 / 20, "45MB"⟩

/-- The two dicts of the cache hold exactly the same keys. -/
def cacheWF {α : Type} (s : CacheState α) : Prop :=
  ∀ k, (dlookup s.cache k).isSome = (dlookup s.ttlCache k).isSome

end Cache

section RateLimiter

/-- An HTTP response as the middleware sees it: status, body, and a
mutable header map (modelled as the final list of header entries). -/
structure Response where
  status : Nat
  body : String
  headers : List (String × String)
  deriving DecidableEq

/-- Outcome of a limiter middleware `dispatch`: either the 429
`HTTPException` raised when the quota is exceeded, or the response of the
wrapped handler (with the headers the middleware appended). -/
inductive DispatchOutcome where
  | rejected (status : Nat) (detail : String)
  | allowed (resp : Response)
  deriving DecidableEq

/-- A `(calls, period)` pair from `AdvancedRateLimitMiddleware.limits`. -/
structure LimitConf where
  calls : Nat
  period : Nat
  deriving DecidableEq

/-- Tier resolution in `AdvancedRateLimitMiddleware.dispatch`: tier is
`"anonymous"` when the authorization header is missing or empty (Python
`if auth_header:` is false on `""`), `"admin"` when it contains the
substring `"admin"`, else `"student"`. -/
def getUserTier : Option String → String
  | none => "anonymous"
  | some h =>
    if h = "" then "anonymous"
    else if strContains h "admin" then "admin" else "student"

/-- The tier table `self.limits` of `AdvancedRateLimitMiddleware`.  The
fall-through case is unreachable: `getUserTier` only produces the three
keys of the Python dict (a missing key would raise `KeyError`). -/
def limits : String → LimitConf
  | "anonymous" => ⟨50, 60⟩
  | "student" => ⟨200, 60⟩
  | "admin" => ⟨1000, 60⟩
  | _ => ⟨0, 0⟩

/-- The window store `self.memory_store`.  The Python key is the string
`"rate_limit:" ++ ip ++ ":" ++ tier ++ ":" ++ toString idx`; since the
three tier names contain no `":"`, that encoding is injective and the
key is embedded as the triple `(ip, tier, idx)` (the garbage collector
reads back exactly the final `idx` component via `split(":")[-1]`). -/
abbrev Store : Type := List ((String × String × Nat) × Nat)

/-- The `detail` string of the 429 `HTTPException` raised by
`AdvancedRateLimitMiddleware.dispatch`. -/
def rejectDetail (tier : String) (lim : LimitConf) : String :=
  "Rate limit exceeded for " ++ tier ++ " tier. Limit: " ++
    toString lim.calls ++ "/" ++ toString lim.period ++ "s"

/-- The `X-RateLimit-*` headers appended on the allowed path.  Python
`max(0, calls - count)` equals truncated `Nat` subtraction. -/
def allowHeaders (tier : String) (lim : LimitConf) (now cnt : Nat) :
    List (String × String) :=
  [("X-RateLimit-Limit", toString lim.calls),
   ("X-RateLimit-Remaining", toString (lim.calls - cnt)),
   ("X-RateLimit-Reset", toString ((now / lim.period + 1) * lim.period)),
   ("X-RateLimit-Tier", tier)]

/-- Method `AdvancedRateLimitMiddleware.dispatch`: resolve the tier, ensure the
window counter exists, increment it, garbage-collect windows more than
one behind the current one, then raise 429 if the count exceeds the
quota, else run the handler (`resp`) and append the rate-limit headers.
`now` is `int(time.time())`; Python `//` on non-negative ints is `Nat`
division, and `idx - 1` at `idx = 0` is `-1` in Python, `0` in `Nat`:
both make the deletion test `e < idx - 1` false for every stored index,
so the embedding is exact. -/
def advDispatch (st : Store) (ip : String) (auth : Option String)
    (now : Nat) (resp : Response) : Store × DispatchOutcome :=
  let tier := getUserTier auth
  let lim := limits tier
  let idx := now / lim.period
  let key := (ip, tier, idx)
  let st1 := if dlookup st key = none then dinsert st key 0 else st
  let cnt := (dlookup st1 key).getD 0 + 1
  let st2 := dinsert st1 key cnt
  let st3 := st2.filter (fun e => ! decide (e.1.2.2 < idx - 1))
  if cnt > lim.calls then
    (st3, .rejected 429 (rejectDetail tier lim))
  else
    (st3, .allowed { resp with
      headers := resp.headers ++ allowHeaders tier lim now cnt })

/-- The window store of the basic `RateLimitMiddleware`, keys
`(ip, idx)`. -/
abbrev SimpleStore : Type := List ((String × Nat) × Nat)

/-- Method `RateLimitMiddleware.dispatch` (the basic, untiered middleware):
same increment / garbage-collection / threshold sequence with a fixed
`(calls, period)` configuration and no extra headers. -/
def simpleDispatch (calls period : Nat) (st : SimpleStore) (ip : String)
    (now : Nat) (resp : Response) : SimpleStore × DispatchOutcome :=
  let idx := now / period
  let key := (ip, idx)
  let st1 := if dlookup st key = none then dinsert st key 0 else st
  let cnt := (dlookup st1 key).getD 0 + 1
  let st2 := dinsert st1 key cnt
  let st3 := st2.filter (fun e => ! decide (e.1.2 < idx - 1))
  if cnt > calls then
    (st3, .rejected 429 "Rate limit exceeded")
  else
    (st3, .allowed resp)

/-- Run `AdvancedRateLimitMiddleware.dispatch` once per listed arrival
time, threading the window store; same client, same auth header, and a
fixed handler response throughout. -/
def runTimes (ip : String) (auth : Option String) (resp : Response) :
    Store → List Nat → Store × List DispatchOutcome
  | st, [] => (st, [])
  | st, t :: ts =>
    let d := advDispatch st ip auth t resp
    let r := runTimes ip auth resp d.1 ts
    (r.1, d.2 :: r.2)

/-- Forgetful view of an outcome: `none` for an allowed request,
`some (status, detail)` for a rejection. -/
def summary : DispatchOutcome → Option (Nat × String)
  | .allowed _ => none
  | .rejected s d => some (s, d)

end RateLimiter

section Pipeline

/-- One labelled event list per Prometheus metric touched by
`logging_and_metrics_middleware`: each `.inc()` / `.observe()` call
prepends its label tuple (with the observed value for the histogram). -/
structure Metrics where
  requestCount : List (String × String × Nat)
  durations : List ((String × String) × ℚ)
  violations : List (String × String)
  deriving DecidableEq

/-- Fault injection for the metrics sink: which of the five recording
calls (`REQUEST_COUNT.inc`, `REQUEST_DURATION.observe`, and the three
`FITNESS_VIOLATIONS.labels(...).inc()`) raises when invoked. -/
structure SinkFaults where
  countFails : Bool
  durationFails : Bool
  searchVioFails : Bool
  catalogVioFails : Bool
  gatewayVioFails : Bool
  deriving DecidableEq

/-- The fault-free sink. -/
def noFaults : SinkFaults := ⟨false, false, false, false, false⟩

/-- Rendering of the `X-Response-Time` header value (Python formats the
float with two decimals; the exact text is irrelevant to the claims). -/
def formatMs (q : ℚ) : String := toString q ++ "ms"

/-- The post-handler half of `logging_and_metrics_middleware` in
`main.py` (lines 139-231): record the request counter and duration
histogram inside one `try/except`, evaluate the three fitness rules —
each violation counter increment inside its own bare `try/except` —
and append `X-Request-ID`, `X-Response-Time` and `X-Fitness-Status` to
the response of the handler.  `durationMs` is the measured elapsed time in
milliseconds. -/
def pipeline (f : SinkFaults) (m : Metrics) (method endpoint : String)
    (durationMs : ℚ) (requestId : String) (resp : Response) :
    Metrics × Response :=
  let m1 :=
    if f.countFails then m
    else
      let mc := { m with
        requestCount := (method, endpoint, resp.status) :: m.requestCount }
      if f.durationFails then mc
      else { mc with durations := ((method, endpoint), durationMs) :: mc.durations }
  let fire1 := strContains endpoint "/search" && decide (durationMs > 200)
  let m2 :=
    if fire1 && ! f.searchVioFails then
      { m1 with violations := ("search_response_time", endpoint) :: m1.violations }
    else m1
  let fire2 := strContains endpoint "/papers/" && decide (method = "GET")
      && decide (durationMs > 100)
  let m3 :=
    if fire2 && ! f.catalogVioFails then
      { m2 with violations := ("catalog_response_time", endpoint) :: m2.violations }
    else m2
  let fire3 := decide (durationMs > 1000)
  let m4 :=
    if fire3 && ! f.gatewayVioFails then
      { m3 with violations := ("gateway_response_time", endpoint) :: m3.violations }
    else m3
  let passed := ! (fire1 || fire2 || fire3)
  (m4, { resp with
    headers := resp.headers ++
      [("X-Request-ID", requestId),
       ("X-Response-Time", formatMs durationMs),
       ("X-Fitness-Status", if passed then "PASS" else "VIOLATION")] })

end Pipeline

example : strContains "/research" "search" = true := by decide
example : strContains "/research" "/search" = false := by decide
example : ((250 : ℚ) > 200) := by decide
example : (cget (⟨[("k", 7)], [("k", 300)]⟩ : CacheState Nat) 300 "k").2 = some 7 := by decide
example : (cget (⟨[("k", 7)], [("k", 300)]⟩ : CacheState Nat) 301 "k").2 = none := by decide

section LimiterLemmas

/-- Closed form of one `advDispatch` step: the store becomes the old
store with the current window counter bumped (then garbage-collected),
and the outcome is decided by comparing the bumped counter with the
tier quota. -/
theorem advDispatch_eq (st : Store) (ip : String) (auth : Option String)
    (now : Nat) (resp : Response) :
    advDispatch st ip auth now resp =
      ((dinsert st (ip, getUserTier auth, now / (limits (getUserTier auth)).period)
          ((dlookup st (ip, getUserTier auth, now / (limits (getUserTier auth)).period)).getD 0 + 1)).filter
        (fun e => ! decide (e.1.2.2 < now / (limits (getUserTier auth)).period - 1)),
       if (dlookup st (ip, getUserTier auth, now / (limits (getUserTier auth)).period)).getD 0 + 1
            > (limits (getUserTier auth)).calls then
         DispatchOutcome.rejected 429 (rejectDetail (getUserTier auth) (limits (getUserTier auth)))
       else
         DispatchOutcome.allowed { resp with
           headers := resp.headers ++ allowHeaders (getUserTier auth) (limits (getUserTier auth))
             now ((dlookup st (ip, getUserTier auth, now / (limits (getUserTier auth)).period)).getD 0 + 1) }) := by
  by_cases h : dlookup st (ip, getUserTier auth, now / (limits (getUserTier auth)).period) = none
  · simp [advDispatch, h, dlookup_dinsert_self, dinsert_dinsert_same]
    split <;> rfl
  · obtain ⟨c, hc⟩ := Option.ne_none_iff_exists'.mp h
    simp [advDispatch, hc]
    split <;> rfl

/-- The key of the current window is never garbage-collected: its index is
the current index, which is not below the current index minus one. -/
theorem currentKey_kept (idx : Nat) (ip tier : String) (v : Nat) :
    (fun (e : (String × String × Nat) × Nat) => ! decide (e.1.2.2 < idx - 1))
      ((ip, tier, idx), v) = true := by
  simp [Nat.not_lt.mpr (Nat.sub_le idx 1)]

/-- After a dispatch, the current window counter reads one more than
before the dispatch. -/
theorem dlookup_advDispatch (st : Store) (ip : String) (auth : Option String)
    (now : Nat) (resp : Response) :
    dlookup (advDispatch st ip auth now resp).1
        (ip, getUserTier auth, now / (limits (getUserTier auth)).period)
      = some ((dlookup st (ip, getUserTier auth, now / (limits (getUserTier auth)).period)).getD 0 + 1) := by
  rw [advDispatch_eq]
  dsimp only
  rw [dlookup_filter _ _ _ (fun v => currentKey_kept _ ip (getUserTier auth) v),
    dlookup_dinsert_self]

end LimiterLemmas

/-- C1: every request through `AdvancedRateLimitMiddleware.dispatch`
increments the counter stored under `(client, tier, now / period)` by
one, and the request is rejected with a 429 whose detail names the tier
and states the quota and period exactly when the post-increment count
exceeds the quota; otherwise the response of the wrapped handler is returned
(with the rate-limit headers appended). -/
theorem adv_dispatch_check_and_increment (st : Store) (ip : String)
    (auth : Option String) (now : Nat) (resp : Response) :
    dlookup (advDispatch st ip auth now resp).1
        (ip, getUserTier auth, now / (limits (getUserTier auth)).period)
      = some ((dlookup st (ip, getUserTier auth, now / (limits (getUserTier auth)).period)).getD 0 + 1)
    ∧ ((advDispatch st ip auth now resp).2
          = DispatchOutcome.rejected 429
              (rejectDetail (getUserTier auth) (limits (getUserTier auth)))
        ↔ (limits (getUserTier auth)).calls
            < (dlookup st (ip, getUserTier auth, now / (limits (getUserTier auth)).period)).getD 0 + 1)
    ∧ ((∃ r, (advDispatch st ip auth now resp).2 = DispatchOutcome.allowed r
          ∧ r.status = resp.status ∧ r.body = resp.body)
        ↔ (dlookup st (ip, getUserTier auth, now / (limits (getUserTier auth)).period)).getD 0 + 1
            ≤ (limits (getUserTier auth)).calls) := by
  refine ⟨dlookup_advDispatch st ip auth now resp, ?_, ?_⟩ <;>
    rw [advDispatch_eq] <;> dsimp only <;>
    by_cases h : (limits (getUserTier auth)).calls
        < (dlookup st (ip, getUserTier auth, now / (limits (getUserTier auth)).period)).getD 0 + 1
  · simp [h]
  · simp [h]
  · simp only [gt_iff_lt, h, if_pos]
    constructor
    · rintro ⟨r, hr, -⟩
      exact absurd hr (by simp)
    · intro hle
      exact absurd h (by omega)
  · simp only [gt_iff_lt, h, if_neg, ite_false]
    constructor
    · intro _
      omega
    · intro _
      exact ⟨_, rfl, rfl, rfl⟩

/-- A plain handler response used in concrete instantiations. -/
def okResp : Response := ⟨200, "ok", []⟩

/-- The metrics registry with no recorded events. -/
def emptyMetrics : Metrics := ⟨[], [], []⟩

/-- C8: after every invocation of a rate-limiter `dispatch` (basic or
advanced), every key surviving in the window store has window index at
least `now / period - 1`: windows more than one behind the current one
are discarded, inside the request itself. -/
theorem window_gc_bound :
    (∀ (st : Store) (ip : String) (auth : Option String) (now : Nat)
       (resp : Response) (e : (String × String × Nat) × Nat),
       e ∈ (advDispatch st ip auth now resp).1 →
       now / (limits (getUserTier auth)).period - 1 ≤ e.1.2.2)
    ∧ (∀ (calls period : Nat) (st : SimpleStore) (ip : String) (now : Nat)
       (resp : Response) (e : (String × Nat) × Nat),
       e ∈ (simpleDispatch calls period st ip now resp).1 →
       now / period - 1 ≤ e.1.2) := by
  constructor
  · intro st ip auth now resp e he
    rw [advDispatch_eq] at he
    dsimp only at he
    have hp := List.of_mem_filter he
    have h2 : ¬ (e.1.2.2 < now / (limits (getUserTier auth)).period - 1) := by
      simpa using hp
    omega
  · intro calls period st ip now resp e he
    simp only [simpleDispatch, apply_ite Prod.fst, ite_self] at he
    have hp := List.of_mem_filter he
    have h2 : ¬ (e.1.2 < now / period - 1) := by simpa using hp
    omega

theorem window_gc_bound_witness :
    0 / (limits (getUserTier none)).period - 1
        ≤ ((("1.2.3.4", "anonymous", 0), 1) : (String × String × Nat) × Nat).1.2.2
    ∧ 0 / 60 - 1 ≤ ((("1.2.3.4", 0), 1) : (String × Nat) × Nat).1.2 :=
  ⟨window_gc_bound.1 [] "1.2.3.4" none 0 okResp (("1.2.3.4", "anonymous", 0), 1)
      (by decide),
   window_gc_bound.2 100 60 [] "1.2.3.4" 0 okResp (("1.2.3.4", 0), 1) (by decide)⟩

/-- C5: whatever subset of the five metric-sink calls raises, the
pipeline still returns the response of the handler — same status, same body —
and the returned response does not depend on the sink faults at all.
Monitoring errors are swallowed where they occur. -/
theorem monitoring_failures_isolated (f f2 : SinkFaults) (m : Metrics)
    (method endpoint : String) (durationMs : ℚ) (requestId : String)
    (resp : Response) :
    (pipeline f m method endpoint durationMs requestId resp).2.status = resp.status
    ∧ (pipeline f m method endpoint durationMs requestId resp).2.body = resp.body
    ∧ (pipeline f m method endpoint durationMs requestId resp).2
        = (pipeline f2 m method endpoint durationMs requestId resp).2 :=
  ⟨rfl, rfl, rfl⟩

/-- The string label the code uses for the authenticated (non-admin,
non-anonymous) tier. -/
def authenticatedTierLabel : String := "student"

/-- C6: tier resolution is a pure function of the authorization header:
absent (or empty, which Python treats as absent) resolves to the
anonymous tier, a present credential resolves to the authenticated tier
(labelled `"student"` in the code), a credential flagged admin (the
flag the code tests: the substring `"admin"`) resolves to the admin tier; the
result is always one of the three tiers. -/
theorem tier_resolution_pure_total :
    getUserTier none = "anonymous"
    ∧ (∀ h, h ≠ "" → strContains h "admin" = false →
        getUserTier (some h) = authenticatedTierLabel)
    ∧ (∀ h, h ≠ "" → strContains h "admin" = true →
        getUserTier (some h) = "admin")
    ∧ (∀ a, getUserTier a = "anonymous" ∨ getUserTier a = authenticatedTierLabel
        ∨ getUserTier a = "admin") := by
  refine ⟨rfl, ?_, ?_, ?_⟩
  · intro h h0 hsub
    simp [getUserTier, h0, hsub, authenticatedTierLabel]
  · intro h h0 hsub
    simp [getUserTier, h0, hsub]
  · intro a
    match a with
    | none => exact Or.inl rfl
    | some h =>
      by_cases h0 : h = ""
      · exact Or.inl (by simp [getUserTier, h0])
      · by_cases hsub : strContains h "admin" = true
        · exact Or.inr (Or.inr (by simp [getUserTier, h0, hsub]))
        · exact Or.inr (Or.inl (by simp [getUserTier, h0, hsub, authenticatedTierLabel]))

theorem tier_resolution_pure_total_witness :
    getUserTier (some "Bearer bob-token") = authenticatedTierLabel
    ∧ getUserTier (some "Bearer admin-token") = "admin" :=
  ⟨tier_resolution_pure_total.2.1 "Bearer bob-token" (by decide) (by decide),
   tier_resolution_pure_total.2.2.1 "Bearer admin-token" (by decide) (by decide)⟩

/-- C7 counterexample: the path `"/research"` contains `"search"` and
not `"/papers/"`, yet a 250 ms duration increments no violation counter
and the fitness header reads PASS — the first fitness rule of the code
matches `"/search"`, not `"search"`. -/
theorem search_fitness_substring_counterexample :
    strContains "/research" "search" = true
    ∧ strContains "/research" "/papers/" = false
    ∧ (pipeline noFaults emptyMetrics "GET" "/research" 250 "rid" okResp).1.violations = []
    ∧ dlookup (pipeline noFaults emptyMetrics "GET" "/research" 250 "rid" okResp).2.headers
        "X-Fitness-Status" = some "PASS" :=
  ⟨by decide, by decide, by decide, by decide⟩

/-- C7 (amended: the search rule fires on paths containing `"/search"`):
on such a path (without `"/papers/"`), a 250 ms duration increments
exactly one violation counter, labelled `search_response_time` and the
endpoint, and sets `X-Fitness-Status: VIOLATION`; a 50 ms duration adds
no violation and the header reads PASS. -/
theorem search_fitness_threshold (m : Metrics)
    (method endpoint requestId : String) (resp : Response)
    (h1 : strContains endpoint "/search" = true)
    (h2 : strContains endpoint "/papers/" = false) :
    (pipeline noFaults m method endpoint 250 requestId resp).1.violations
        = ("search_response_time", endpoint) :: m.violations
    ∧ (pipeline noFaults m method endpoint 250 requestId resp).2.headers
        = resp.headers ++ [("X-Request-ID", requestId), ("X-Response-Time", formatMs 250),
            ("X-Fitness-Status", "VIOLATION")]
    ∧ (pipeline noFaults m method endpoint 50 requestId resp).1.violations
        = m.violations
    ∧ (pipeline noFaults m method endpoint 50 requestId resp).2.headers
        = resp.headers ++ [("X-Request-ID", requestId), ("X-Response-Time", formatMs 50),
            ("X-Fitness-Status", "PASS")] := by
  have e1 : decide ((250 : ℚ) > 200) = true := by decide
  have e3 : decide ((250 : ℚ) > 1000) = false := by decide
  have e4 : decide ((50 : ℚ) > 200) = false := by decide
  have e6 : decide ((50 : ℚ) > 1000) = false := by decide
  refine ⟨?_, ?_, ?_, ?_⟩ <;>
    simp [pipeline, noFaults, h1, h2, e1, e3, e4, e6]

theorem search_fitness_threshold_witness :
    (pipeline noFaults emptyMetrics "GET" "/api/v1/search" 250 "rid" okResp).1.violations
        = ("search_response_time", "/api/v1/search") :: emptyMetrics.violations
    ∧ (pipeline noFaults emptyMetrics "GET" "/api/v1/search" 50 "rid" okResp).1.violations
        = emptyMetrics.violations :=
  ⟨(search_fitness_threshold emptyMetrics "GET" "/api/v1/search" "rid" okResp
      (by decide) (by decide)).1,
   (search_fitness_threshold emptyMetrics "GET" "/api/v1/search" "rid" okResp
      (by decide) (by decide)).2.2.1⟩

/-- C2 counterexample: at the instant `now = expires_at` the claimed
visibility condition `now < expires_at` is false, yet `get` still
returns the stored value — the code evicts only when `now` strictly
exceeds the expiry.  Concretely: `set("k", 7, ttl=300)` at time 0, then
`get("k")` at time 300. -/
theorem cache_get_boundary_counterexample :
    dlookup (cset (emptyCache (α := Nat)) 0 "k" 7 300).cache "k" = some 7
    ∧ dlookup (cset (emptyCache (α := Nat)) 0 "k" 7 300).ttlCache "k" = some 300
    ∧ ¬ ((300 : ℚ) < 300)
    ∧ (cget (cset (emptyCache (α := Nat)) 0 "k" 7 300) 300 "k").2 = some 7 := by
  have hv : dlookup (cset (emptyCache (α := Nat)) 0 "k" 7 300).cache "k" = some 7 := by
    simp [cset, emptyCache, dinsert, dlookup]
  have he : dlookup (cset (emptyCache (α := Nat)) 0 "k" 7 300).ttlCache "k"
      = some 300 := by
    simp [cset, emptyCache, dinsert, dlookup]
  have hlt : ¬ ((300 : ℚ) > 300) := by norm_num
  refine ⟨hv, he, by norm_num, ?_⟩
  simp only [cget, hv, he]
  rw [if_neg hlt]

/-- C2 (amended: an entry is visible exactly while `now ≤ expires_at`;
the code evicts when `now` strictly exceeds the expiry): `get` returns
the stored value iff the entry exists and its expiry has not strictly
passed; a lookup finding a strictly expired entry removes it from both
dicts and returns absent; a missing key leaves the state untouched. -/
theorem cache_get_lazy_expiry {α : Type} (s : CacheState α) (now : ℚ)
    (k : String) (hwf : cacheWF s) :
    (∀ v : α, (cget s now k).2 = some v ↔
        dlookup s.cache k = some v
        ∧ ∃ e, dlookup s.ttlCache k = some e ∧ now ≤ e)
    ∧ (∀ e : ℚ, dlookup s.ttlCache k = some e → e < now →
        dlookup (cget s now k).1.cache k = none
        ∧ dlookup (cget s now k).1.ttlCache k = none
        ∧ (cget s now k).2 = none)
    ∧ (dlookup s.cache k = none →
        (cget s now k).1 = s ∧ (cget s now k).2 = none) := by
  cases hc : dlookup s.cache k with
  | none =>
    have ht : dlookup s.ttlCache k = none := by
      have := hwf k
      rw [hc] at this
      cases h2 : dlookup s.ttlCache k with
      | none => rfl
      | some e => rw [h2] at this; simp at this
    refine ⟨?_, ?_, ?_⟩
    · intro v
      simp [cget, hc]
    · intro e hee
      rw [ht] at hee
      cases hee
    · intro _
      simp [cget, hc]
  | some v0 =>
    have hts : (dlookup s.ttlCache k).isSome = true := by
      have := hwf k
      rw [hc] at this
      exact this.symm
    obtain ⟨e0, ht⟩ := Option.isSome_iff_exists.mp hts
    by_cases hexp : now > e0
    · refine ⟨?_, ?_, ?_⟩
      · intro v
        simp only [cget, hc, ht]
        rw [if_pos hexp]
        constructor
        · intro hv
          cases hv
        · rintro ⟨-, e, he, hle⟩
          cases he
          exact absurd hexp (not_lt.mpr hle)
      · intro e he hlt
        simp only [cget, hc, ht]
        rw [if_pos hexp]
        exact ⟨dlookup_ddelete_self _ _, dlookup_ddelete_self _ _, rfl⟩
      · intro h0
        simp at h0
    · refine ⟨?_, ?_, ?_⟩
      · intro v
        simp only [cget, hc, ht]
        rw [if_neg hexp]
        constructor
        · intro hv
          cases hv
          exact ⟨rfl, e0, rfl, not_lt.mp hexp⟩
        · rintro ⟨hv, -⟩
          cases hv
          rfl
      · intro e he hlt
        rw [ht] at he
        cases he
        exact absurd hlt hexp
      · intro h0
        simp at h0

theorem cache_get_lazy_expiry_witness :
    (cget (⟨[("k", 7)], [("k", 300)]⟩ : CacheState Nat) 100 "k").2 = some 7 ↔
      dlookup (⟨[("k", 7)], [("k", 300)]⟩ : CacheState Nat).cache "k" = some 7
      ∧ ∃ e, dlookup (⟨[("k", 7)], [("k", 300)]⟩ : CacheState Nat).ttlCache "k" = some e
          ∧ (100 : ℚ) ≤ e :=
  (cache_get_lazy_expiry (⟨[("k", 7)], [("k", 300)]⟩ : CacheState Nat) 100 "k"
    (by intro k2; by_cases h : k2 = "k" <;> simp [dlookup, h])).1 7

/-- C9: from the empty cache on, every `DistributedCacheService`
operation preserves the invariant that `self.cache` and `self.ttl_cache`
hold exactly the same keys, so the paired deletions inside `get` and
`delete` always find the key in both dicts or in neither. -/
theorem cache_ttl_keysets_aligned :
    (∀ (α : Type), cacheWF (emptyCache (α := α)))
    ∧ (∀ (α : Type) (s : CacheState α) (now : ℚ) (k : String) (v : α) (ttl : ℚ),
        cacheWF s → cacheWF (cset s now k v ttl))
    ∧ (∀ (α : Type) (s : CacheState α) (now : ℚ) (k : String),
        cacheWF s → cacheWF (cget s now k).1)
    ∧ (∀ (α : Type) (s : CacheState α) (k : String),
        cacheWF s → cacheWF (cdelete s k)) := by
  have hdel : ∀ (α : Type) (s : CacheState α) (k : String),
      cacheWF s → cacheWF ⟨ddelete s.cache k, ddelete s.ttlCache k⟩ := by
    intro α s k hwf k2
    by_cases h : k2 = k
    · subst h
      simp [dlookup_ddelete_self]
    · simp only [dlookup_ddelete_ne _ _ _ h]
      exact hwf k2
  refine ⟨?_, ?_, ?_, ?_⟩
  · intro α k
    rfl
  · intro α s now k v ttl hwf k2
    by_cases h : k2 = k
    · subst h
      simp [cset, dlookup_dinsert_self]
    · simp only [cset, dlookup_dinsert_ne _ _ _ _ h]
      exact hwf k2
  · intro α s now k hwf
    cases hc : dlookup s.cache k with
    | none => simpa [cget, hc] using hwf
    | some v0 =>
      cases ht : dlookup s.ttlCache k with
      | none => simpa [cget, hc, ht] using hwf
      | some e0 =>
        by_cases hexp : now > e0
        · simp only [cget, hc, ht]
          rw [if_pos hexp]
          exact hdel α s k hwf
        · simpa [cget, hc, ht, hexp] using hwf
  · intro α s k hwf
    exact hdel α s k hwf

theorem cache_ttl_keysets_aligned_witness :
    cacheWF (cset (emptyCache (α := Nat)) 0 "k" 7 300) :=
  cache_ttl_keysets_aligned.2.1 Nat emptyCache 0 "k" 7 300
    (cache_ttl_keysets_aligned.1 Nat)

/-- C10: `get_stats` always returns `hit_rate = 0.85` and
`memory_usage = "45MB"` with `total_keys` the raw size of `self.cache`;
the count includes strictly expired entries that no `get` has evicted
yet — below, the single entry expired at time 100 is still counted at
time 1000 although `get` treats it as absent. -/
theorem cache_stats_mock_constants :
    (∀ (α : Type) (s : CacheState α),
        cstats s = ⟨s.cache.length, 17 / 20, "45MB"⟩)
    ∧ (cstats (⟨[("k", 7)], [("k", 100)]⟩ : CacheState Nat)).totalKeys = 1
    ∧ ((100 : ℚ) < 1000)
    ∧ (cget (⟨[("k", 7)], [("k", 100)]⟩ : CacheState Nat) 1000 "k").2 = none :=
  ⟨fun α s => rfl, by decide, by decide, by decide⟩

section WindowRollover

/-- When every stored window index is already within the garbage
collector bound, one `advDispatch` leaves exactly the old store with
the current counter bumped, and the outcome is the quota comparison. -/
theorem advDispatch_step_clean (st : Store) (ip : String) (auth : Option String)
    (now : Nat) (resp : Response)
    (hclean : ∀ e ∈ st, now / (limits (getUserTier auth)).period - 1 ≤ e.1.2.2) :
    advDispatch st ip auth now resp
      = (dinsert st (ip, getUserTier auth, now / (limits (getUserTier auth)).period)
           ((dlookup st (ip, getUserTier auth, now / (limits (getUserTier auth)).period)).getD 0 + 1),
         if (dlookup st (ip, getUserTier auth, now / (limits (getUserTier auth)).period)).getD 0 + 1
              > (limits (getUserTier auth)).calls then
           DispatchOutcome.rejected 429
             (rejectDetail (getUserTier auth) (limits (getUserTier auth)))
         else
           DispatchOutcome.allowed { resp with
             headers := resp.headers
               ++ allowHeaders (getUserTier auth) (limits (getUserTier auth)) now
                 ((dlookup st (ip, getUserTier auth, now / (limits (getUserTier auth)).period)).getD 0 + 1) }) := by
  rw [advDispatch_eq]
  have hfil : (dinsert st (ip, getUserTier auth, now / (limits (getUserTier auth)).period)
        ((dlookup st (ip, getUserTier auth, now / (limits (getUserTier auth)).period)).getD 0 + 1)).filter
        (fun e => ! decide (e.1.2.2 < now / (limits (getUserTier auth)).period - 1))
      = dinsert st (ip, getUserTier auth, now / (limits (getUserTier auth)).period)
          ((dlookup st (ip, getUserTier auth, now / (limits (getUserTier auth)).period)).getD 0 + 1) := by
    apply filter_all_eq
    intro e he
    rcases mem_dinsert _ _ _ _ he with h | h
    · have h2 := hclean e h
      simp [Nat.not_lt.mpr h2]
    · subst h
      exact currentKey_kept _ _ _ _
  rw [hfil]

/-- Running `m` requests at one fixed arrival time `now` from a clean
store whose current counter leaves room for all of them: all `m` are
allowed, the current counter grows by `m`, every other key is untouched,
and no entry with a foreign key is created. -/
theorem runTimes_replicate (ip : String) (auth : Option String) (resp : Response)
    (now : Nat) :
    ∀ (m : Nat) (st : Store),
    (∀ e ∈ st, now / (limits (getUserTier auth)).period - 1 ≤ e.1.2.2) →
    (dlookup st (ip, getUserTier auth, now / (limits (getUserTier auth)).period)).getD 0 + m
        ≤ (limits (getUserTier auth)).calls →
    ((runTimes ip auth resp st (List.replicate m now)).2.map summary
        = List.replicate m none)
    ∧ ((dlookup (runTimes ip auth resp st (List.replicate m now)).1
          (ip, getUserTier auth, now / (limits (getUserTier auth)).period)).getD 0
        = (dlookup st (ip, getUserTier auth, now / (limits (getUserTier auth)).period)).getD 0 + m)
    ∧ (∀ k2, k2 ≠ (ip, getUserTier auth, now / (limits (getUserTier auth)).period) →
        dlookup (runTimes ip auth resp st (List.replicate m now)).1 k2 = dlookup st k2)
    ∧ (∀ e ∈ (runTimes ip auth resp st (List.replicate m now)).1,
        e ∈ st ∨ e.1 = (ip, getUserTier auth, now / (limits (getUserTier auth)).period)) := by
  intro m
  induction m with
  | zero =>
    intro st hclean hq
    refine ⟨rfl, by simp [runTimes], fun k2 h2 => rfl, fun e he => Or.inl he⟩
  | succ m ih =>
    intro st hclean hq
    have hstep := advDispatch_step_clean st ip auth now resp hclean
    have hallow : ¬ ((dlookup st (ip, getUserTier auth, now / (limits (getUserTier auth)).period)).getD 0 + 1
        > (limits (getUserTier auth)).calls) := by omega
    have hout : (advDispatch st ip auth now resp).2
        = DispatchOutcome.allowed { resp with
            headers := resp.headers
              ++ allowHeaders (getUserTier auth) (limits (getUserTier auth)) now
                ((dlookup st (ip, getUserTier auth, now / (limits (getUserTier auth)).period)).getD 0 + 1) } := by
      rw [hstep]
      exact if_neg hallow
    have hst : (advDispatch st ip auth now resp).1
        = dinsert st (ip, getUserTier auth, now / (limits (getUserTier auth)).period)
            ((dlookup st (ip, getUserTier auth, now / (limits (getUserTier auth)).period)).getD 0 + 1) := by
      rw [hstep]
    have hclean2 : ∀ e ∈ (advDispatch st ip auth now resp).1,
        now / (limits (getUserTier auth)).period - 1 ≤ e.1.2.2 := by
      rw [hst]
      intro e he
      rcases mem_dinsert _ _ _ _ he with h | h
      · exact hclean e h
      · subst h
        exact Nat.sub_le _ _
    have hcnt2 : (dlookup (advDispatch st ip auth now resp).1
          (ip, getUserTier auth, now / (limits (getUserTier auth)).period)).getD 0
        = (dlookup st (ip, getUserTier auth, now / (limits (getUserTier auth)).period)).getD 0 + 1 := by
      rw [hst, dlookup_dinsert_self]
      rfl
    have hq2 : (dlookup (advDispatch st ip auth now resp).1
          (ip, getUserTier auth, now / (limits (getUserTier auth)).period)).getD 0 + m
        ≤ (limits (getUserTier auth)).calls := by
      rw [hcnt2]; omega
    obtain ⟨ihmap, ihcnt, ihpres, ihmem⟩ := ih (advDispatch st ip auth now resp).1 hclean2 hq2
    have hrun : runTimes ip auth resp st (List.replicate (m + 1) now)
        = ((runTimes ip auth resp (advDispatch st ip auth now resp).1 (List.replicate m now)).1,
           (advDispatch st ip auth now resp).2
             :: (runTimes ip auth resp (advDispatch st ip auth now resp).1 (List.replicate m now)).2) := by
      rw [List.replicate_succ]
      rfl
    refine ⟨?_, ?_, ?_, ?_⟩
    · rw [hrun]
      simp only [List.map_cons, hout, summary, ihmap, List.replicate_succ]
    · rw [hrun]
      dsimp only
      rw [ihcnt, hcnt2]
      omega
    · intro k2 h2
      rw [hrun]
      dsimp only
      rw [ihpres k2 h2, hst, dlookup_dinsert_ne _ _ _ _ h2]
    · intro e he
      rw [hrun] at he
      dsimp only at he
      rcases ihmem e he with h | h
      · rw [hst] at h
        rcases mem_dinsert _ _ _ _ h with h3 | h3
        · exact Or.inl h3
        · subst h3
          exact Or.inr rfl
      · exact Or.inr h

/-- Running `runTimes` over a concatenation of arrival lists is the two runs
in sequence. -/
theorem runTimes_append (ip : String) (auth : Option String) (resp : Response) :
    ∀ (l1 l2 : List Nat) (st : Store),
    runTimes ip auth resp st (l1 ++ l2)
      = ((runTimes ip auth resp (runTimes ip auth resp st l1).1 l2).1,
         (runTimes ip auth resp st l1).2
           ++ (runTimes ip auth resp (runTimes ip auth resp st l1).1 l2).2) := by
  intro l1
  induction l1 with
  | nil =>
    intro l2 st
    simp [runTimes]
  | cons a l1 ih =>
    intro l2 st
    simp [runTimes, ih]

end WindowRollover

/-- C3: for one client in one fixed window of its tier (quota Q, period
P), the first Q requests are allowed, the (Q+1)-th is rejected with the
429 quota detail, and after the window index advances the counter starts
from zero again: Q further requests are all allowed. -/
theorem fixed_window_quota_rollover (ip : String) (auth : Option String)
    (resp : Response) (t t' : Nat)
    (hroll : t' / (limits (getUserTier auth)).period
        = t / (limits (getUserTier auth)).period + 1) :
    (runTimes ip auth resp []
        (List.replicate ((limits (getUserTier auth)).calls + 1) t
          ++ List.replicate (limits (getUserTier auth)).calls t')).2.map summary
      = List.replicate (limits (getUserTier auth)).calls none
        ++ some (429, rejectDetail (getUserTier auth) (limits (getUserTier auth)))
          :: List.replicate (limits (getUserTier auth)).calls none := by
  have hksplit : List.replicate ((limits (getUserTier auth)).calls + 1) t
      ++ List.replicate (limits (getUserTier auth)).calls t'
    = List.replicate (limits (getUserTier auth)).calls t
      ++ (t :: List.replicate (limits (getUserTier auth)).calls t') := by
    rw [List.replicate_succ']
    simp
  obtain ⟨h1map, h1cnt, h1pres, h1mem⟩ := runTimes_replicate ip auth resp t
    (limits (getUserTier auth)).calls [] (by intro e he; cases he)
    (by simp [dlookup])
  have hclean1 : ∀ e ∈ (runTimes ip auth resp []
      (List.replicate (limits (getUserTier auth)).calls t)).1,
      t / (limits (getUserTier auth)).period - 1 ≤ e.1.2.2 := by
    intro e he
    rcases h1mem e he with h | h
    · cases h
    · have h3 := congrArg (fun k : String × String × Nat => k.2.2) h
      simp only at h3
      omega
  have hstep := advDispatch_step_clean
    (runTimes ip auth resp [] (List.replicate (limits (getUserTier auth)).calls t)).1
    ip auth t resp hclean1
  have hQs1 : (dlookup (runTimes ip auth resp []
        (List.replicate (limits (getUserTier auth)).calls t)).1
        (ip, getUserTier auth, t / (limits (getUserTier auth)).period)).getD 0
      = (limits (getUserTier auth)).calls := by
    rw [h1cnt]
    simp [dlookup]
  have hrej : (advDispatch (runTimes ip auth resp []
        (List.replicate (limits (getUserTier auth)).calls t)).1 ip auth t resp).2
      = DispatchOutcome.rejected 429
          (rejectDetail (getUserTier auth) (limits (getUserTier auth))) := by
    rw [hstep]
    dsimp only
    rw [hQs1]
    exact if_pos (Nat.lt_succ_self _)
  have hst2 : (advDispatch (runTimes ip auth resp []
        (List.replicate (limits (getUserTier auth)).calls t)).1 ip auth t resp).1
      = dinsert (runTimes ip auth resp []
          (List.replicate (limits (getUserTier auth)).calls t)).1
          (ip, getUserTier auth, t / (limits (getUserTier auth)).period)
          ((limits (getUserTier auth)).calls + 1) := by
    rw [hstep]
    dsimp only
    rw [hQs1]
  have hkey_ne : (ip, getUserTier auth, t' / (limits (getUserTier auth)).period)
      ≠ (ip, getUserTier auth, t / (limits (getUserTier auth)).period) := by
    intro heq
    have h3 := congrArg (fun k : String × String × Nat => k.2.2) heq
    simp only at h3
    omega
  have hclean2 : ∀ e ∈ (advDispatch (runTimes ip auth resp []
      (List.replicate (limits (getUserTier auth)).calls t)).1 ip auth t resp).1,
      t' / (limits (getUserTier auth)).period - 1 ≤ e.1.2.2 := by
    rw [hst2]
    intro e he
    rcases mem_dinsert _ _ _ _ he with h | h
    · rcases h1mem e h with h2 | h2
      · cases h2
      · have h3 := congrArg (fun k : String × String × Nat => k.2.2) h2
        simp only at h3
        omega
    · have h3 := congrArg (fun k : (String × String × Nat) × Nat => k.1.2.2) h
      simp only at h3
      omega
  have hcnt2 : (dlookup (advDispatch (runTimes ip auth resp []
        (List.replicate (limits (getUserTier auth)).calls t)).1 ip auth t resp).1
        (ip, getUserTier auth, t' / (limits (getUserTier auth)).period)).getD 0 + (limits (getUserTier auth)).calls
      ≤ (limits (getUserTier auth)).calls := by
    rw [hst2, dlookup_dinsert_ne _ _ _ _ hkey_ne, h1pres _ hkey_ne]
    simp [dlookup]
  obtain ⟨h2map, h2cnt, h2pres, h2mem⟩ := runTimes_replicate ip auth resp t'
    (limits (getUserTier auth)).calls
    (advDispatch (runTimes ip auth resp []
      (List.replicate (limits (getUserTier auth)).calls t)).1 ip auth t resp).1
    hclean2 hcnt2
  rw [hksplit, runTimes_append]
  dsimp only
  rw [List.map_append, h1map]
  simp only [runTimes]
  rw [List.map_cons, hrej, h2map]
  rfl

theorem fixed_window_quota_rollover_witness :
    (runTimes "1.2.3.4" none okResp []
        (List.replicate ((limits (getUserTier none)).calls + 1) 0
          ++ List.replicate (limits (getUserTier none)).calls 60)).2.map summary
      = List.replicate (limits (getUserTier none)).calls none
        ++ some (429, rejectDetail (getUserTier none) (limits (getUserTier none)))
          :: List.replicate (limits (getUserTier none)).calls none :=
  fixed_window_quota_rollover "1.2.3.4" none okResp 0 60 (by decide)
